import Mathlib

/-!
Verification of the client-side TIFF/OME-TIFF metadata extractor (tools.js).

The binary buffer is modelled as a list of bytes (`Buf`); `DataView` reads
are modelled exactly: an endian-aware fixed-width read succeeds when the
whole span lies inside the buffer and raises (modelled as `Except.error ()`)
otherwise, matching the `RangeError` a JS `DataView` throws on an
out-of-range read.  JS numbers that hold byte/word values are modelled as
`Nat`; the floating-point quantities produced by `parseFloat` and by the
rational division `num / denom` are modelled as exact rationals (`ℚ`).
-/

deriving instance DecidableEq for Except

namespace Tiff

/-- A binary buffer: the sequence of bytes handed to `parseTiffMetadata`. -/
abbrev Buf := List Nat

/-- Byte at index `i` (bytes in a real buffer are 0..255; reads are
normalised mod 256 the way `DataView.getUint8` can only yield 0..255). -/
def byteAt (buf : Buf) (i : Nat) : Nat := buf.getD i 0 % 256

/-- Value of the unguarded 16-bit read `view.getUint16(off, littleEndian)`. -/
def u16 (buf : Buf) (le : Bool) (off : Nat) : Nat :=
  if le then byteAt buf off + 256 * byteAt buf (off + 1)
  else 256 * byteAt buf off + byteAt buf (off + 1)

/-- Value of the unguarded 32-bit read `view.getUint32(off, littleEndian)`. -/
def u32 (buf : Buf) (le : Bool) (off : Nat) : Nat :=
  if le then
    byteAt buf off + 256 * byteAt buf (off + 1) + 65536 * byteAt buf (off + 2)
      + 16777216 * byteAt buf (off + 3)
  else
    16777216 * byteAt buf off + 65536 * byteAt buf (off + 1)
      + 256 * byteAt buf (off + 2) + byteAt buf (off + 3)

/-- `view.getUint16(off, le)` with the `DataView` bounds behaviour: a read
whose 2-byte span leaves the buffer throws (`Except.error`). -/
def getU16E (buf : Buf) (le : Bool) (off : Nat) : Except Unit Nat :=
  if off + 2 ≤ buf.length then .ok (u16 buf le off) else .error ()

/-- `view.getUint32(off, le)` with the `DataView` bounds behaviour. -/
def getU32E (buf : Buf) (le : Bool) (off : Nat) : Except Unit Nat :=
  if off + 4 ≤ buf.length then .ok (u32 buf le off) else .error ()

/-- The helper `getUint64(view, offset, little)`: two 32-bit reads combined
as `high * 2^32 + low` (little) or `low * 2^32 + high` (big).  The JS
version goes through a double and loses precision above 2^53; here the
combination is exact, which only differs for offsets no buffer can reach. -/
def getU64E (buf : Buf) (le : Bool) (off : Nat) : Except Unit Nat :=
  match getU32E buf le off, getU32E buf le (off + 4) with
  | .ok low, .ok high =>
      .ok (if le then high * 4294967296 + low else low * 4294967296 + high)
  | .error e, _ => .error e
  | _, .error e => .error e

/-- The parsed-metadata record built by `parseTiffMetadata` (its `meta`
object): every field independently optional, `none` meaning the key is
absent or holds `undefined`. -/
structure Meta where
  width : Option Nat := none
  height : Option Nat := none
  xResolution : Option ℚ := none
  yResolution : Option ℚ := none
  physicalSizeX : Option ℚ := none
  physicalSizeY : Option ℚ := none
  physicalSizeZ : Option ℚ := none
  physicalSizeUnit : Option String := none
  timeIncrement : Option ℚ := none
  timeIncrementUnit : Option String := none
  frameRate : Option ℚ := none
  deriving Repr, DecidableEq

/-- The local accumulator of the IFD loop: the variables
`width, height, xRes, yRes, description` of `parseTiffMetadata`. -/
structure IfdAcc where
  width : Option Nat := none
  height : Option Nat := none
  xRes : Option ℚ := none
  yRes : Option ℚ := none
  description : Option String := none
  deriving Repr, DecidableEq

/-- The lookup table `typeSizeMap = {1:1, 2:1, 3:2, 4:4, 5:8, 7:1, 16:8}`;
an unknown field type yields `typeSizeMap[type] || 0 = 0`. -/
def typeSizeMap (t : Nat) : Nat :=
  match t with
  | 1 => 1 | 2 => 1 | 3 => 2 | 4 => 4 | 5 => 8 | 7 => 1 | 16 => 8
  | _ => 0

/-- The ImageDescription byte loop: read up to `fuel` bytes starting at
`off`, stopping at the buffer end (`valueOffset + j < view.byteLength`)
or at the first null byte, converting each byte with
`String.fromCharCode`. -/
def readDesc (buf : Buf) (off : Nat) : Nat → List Char
  | 0 => []
  | fuel + 1 =>
    if off < buf.length then
      let c := byteAt buf off
      if c = 0 then [] else Char.ofNat c :: readDesc buf (off + 1) fuel
    else []

/-- The tag dispatch of one IFD entry (the `if (tag === 0x0100) ... else if
... ` chain), operating on the resolved `valueOffset`.  Reads through the
`DataView` may throw, so the result is in `Except`. -/
def handleTag (buf : Buf) (le : Bool) (st : IfdAcc)
    (tag ftype size valueOffset : Nat) : Except Unit IfdAcc :=
  if tag = 0x0100 then
    match (if ftype = 3 then getU16E buf le valueOffset
           else getU32E buf le valueOffset) with
    | .ok w => .ok { st with width := some w }
    | .error e => .error e
  else if tag = 0x0101 then
    match (if ftype = 3 then getU16E buf le valueOffset
           else getU32E buf le valueOffset) with
    | .ok h => .ok { st with height := some h }
    | .error e => .error e
  else if tag = 0x011A then
    match getU32E buf le valueOffset, getU32E buf le (valueOffset + 4) with
    | .ok num, .ok denom =>
        .ok { st with xRes := if denom ≠ 0 then some ((num : ℚ) / (denom : ℚ)) else none }
    | .error e, _ => .error e
    | _, .error e => .error e
  else if tag = 0x011B then
    match getU32E buf le valueOffset, getU32E buf le (valueOffset + 4) with
    | .ok num, .ok denom =>
        .ok { st with yRes := if denom ≠ 0 then some ((num : ℚ) / (denom : ℚ)) else none }
    | .error e, _ => .error e
    | _, .error e => .error e
  else if tag = 0x010E then
    .ok { st with description := some (String.mk (readDesc buf valueOffset size)) }
  else
    .ok st

/-- One iteration of the IFD entry loop (loop body for index `i`): the
12-byte-span guard, the tag/type/count reads (all inside the guarded span,
hence modelled by the pure read values), the size computation, the
inline-vs-pointer resolution of the value location with its bounds check,
and the tag dispatch. -/
def processEntry (buf : Buf) (le : Bool) (firstIFDOffset : Nat)
    (st : IfdAcc) (i : Nat) : Except Unit IfdAcc :=
  let entryOffset := firstIFDOffset + 2 + i * 12
  if entryOffset + 12 > buf.length then .ok st
  else
    let tag := u16 buf le entryOffset
    let ftype := u16 buf le (entryOffset + 2)
    let count := u32 buf le (entryOffset + 4)
    let size := typeSizeMap ftype * count
    if size ≤ 4 then
      handleTag buf le st tag ftype size (entryOffset + 8)
    else
      let valueOffset := u32 buf le (entryOffset + 8)
      if valueOffset + size > buf.length then .ok st
      else handleTag buf le st tag ftype size valueOffset

/-- Endianness detection: bytes 0-1 equal to `II` (0x49 0x49) select
little-endian, anything else big-endian. -/
def littleEndianOf (buf : Buf) : Bool :=
  (byteAt buf 0 == 0x49) && (byteAt buf 1 == 0x49)

/-- The 16-bit magic number at offset 2, read in the detected byte order. -/
def magicOf (buf : Buf) : Nat := u16 buf (littleEndianOf buf) 2

/-- Whitespace as matched by `\s` / stripped by `trim` (ASCII subset). -/
def isSpaceChar (c : Char) : Bool :=
  c = ' ' || c = '\t' || c = '\n' || c = '\r' || c = '\x0b' || c = '\x0c'

/-- Value of a digit run, most significant first. -/
def digitsToNat (ds : List Char) : Nat :=
  ds.foldl (fun a c => a * 10 + (c.toNat - 48)) 0

/-- Modelled from the spec: JS `parseFloat` (a host function, not in the
repository) on plain decimal strings — leading whitespace and an optional
sign, an integer part, an optional `.` with a fractional part; a string
with no leading number gives NaN, modelled as `none` (a NaN-valued field
is falsy wherever the code inspects it, exactly like an absent one).
Exponents never occur in the captured inputs and are not modelled. -/
def parseFloatCore (cs : List Char) : Option ℚ :=
  let intDigits := cs.takeWhile Char.isDigit
  let rest := cs.dropWhile Char.isDigit
  match rest with
  | '.' :: rest2 =>
      let fracDigits := rest2.takeWhile Char.isDigit
      if intDigits.isEmpty ∧ fracDigits.isEmpty then none
      else some ((digitsToNat intDigits : ℚ)
        + (digitsToNat fracDigits : ℚ) / ((10 : ℚ) ^ fracDigits.length))
  | _ => if intDigits.isEmpty then none else some (digitsToNat intDigits : ℚ)

/-- Modelled from the spec: JS `parseFloat`, see `parseFloatCore`. -/
def parseFloat? (s : String) : Option ℚ :=
  match s.data.dropWhile isSpaceChar with
  | '-' :: rest => (parseFloatCore rest).map (fun q => -q)
  | '+' :: rest => parseFloatCore rest
  | cs => parseFloatCore cs

/-- Case-insensitive match of a literal word against the head of `cs`,
returning the remainder on success (the `/i` flag of the source regexes). -/
def matchWordCI : List Char → List Char → Option (List Char)
  | [], cs => some cs
  | _ :: _, [] => none
  | w :: ws, c :: cs => if w.toLower = c.toLower then matchWordCI ws cs else none

/-- Match a sequence of literal words joined by `\s*` (so `frame\s*rate`
is the word list `["frame", "rate"]`), case-insensitively. -/
def matchWordsCI : List String → List Char → Option (List Char)
  | [], cs => some cs
  | w :: ws, cs =>
    match matchWordCI w.data cs with
    | some rest => matchWordsCI ws (rest.dropWhile isSpaceChar)
    | none => none

/-- One of the source's description regexes, e.g.
`/frame\s*rate\s*[:=]\s*([0-9.]+)/i`: literal words joined by `\s*`, then
`\s*`, one separator from `seps`, `\s*`, and the capture `([0-9.]+)`. -/
structure TextPat where
  words : List String
  seps : List Char

/-- Try the pattern anchored at `cs`; on success return the capture. -/
def matchPatAt (p : TextPat) (cs : List Char) : Option String :=
  match matchWordsCI p.words cs with
  | none => none
  | some rest =>
    match rest with
    | [] => none
    | c :: rest2 =>
      if p.seps.contains c then
        let rest3 := rest2.dropWhile isSpaceChar
        let numChars := rest3.takeWhile (fun c => c.isDigit || c = '.')
        if numChars.isEmpty then none else some (String.mk numChars)
      else none

/-- `description.match(pattern)`: scan left to right, first position where
the pattern matches wins; `none` when it matches nowhere. -/
def searchPat (p : TextPat) : List Char → Option String
  | [] => none
  | c :: rest =>
    match matchPatAt p (c :: rest) with
    | some cap => some cap
    | none => searchPat p rest

/-- Pattern `/micronsPerPixelX\s*=\s*([0-9.]+)/i`. -/
def patPhysicalSizeX : TextPat := ⟨["micronsPerPixelX"], ['=']⟩

/-- Pattern `/micronsPerPixelY\s*=\s*([0-9.]+)/i`. -/
def patPhysicalSizeY : TextPat := ⟨["micronsPerPixelY"], ['=']⟩

/-- Pattern `/frame\s*rate\s*[:=]\s*([0-9.]+)/i`. -/
def patFrameRate : TextPat := ⟨["frame", "rate"], [':', '=']⟩

/-- Pattern `/time\s*increment\s*[:=]\s*([0-9.]+)/i`. -/
def patTimeIncrement : TextPat := ⟨["time", "increment"], [':', '=']⟩

/-- The non-XML branch of the description interpreter: the four
independent case-insensitive searches, each match setting its field to
`parseFloat(match[1])`. -/
def applyPatterns (description : String) (meta : Meta) : Meta :=
  let meta := match searchPat patPhysicalSizeX description.data with
    | some cap => { meta with physicalSizeX := parseFloat? cap }
    | none => meta
  let meta := match searchPat patPhysicalSizeY description.data with
    | some cap => { meta with physicalSizeY := parseFloat? cap }
    | none => meta
  let meta := match searchPat patFrameRate description.data with
    | some cap => { meta with frameRate := parseFloat? cap }
    | none => meta
  let meta := match searchPat patTimeIncrement description.data with
    | some cap => { meta with timeIncrement := parseFloat? cap }
    | none => meta
  meta

/-- Exact (case-sensitive) match of a literal against the head of `cs`. -/
def startsWithChars : List Char → List Char → Option (List Char)
  | [], cs => some cs
  | _ :: _, [] => none
  | p :: ps, c :: cs => if p = c then startsWithChars ps cs else none

/-- Modelled from the spec: attribute scanning inside an element start tag,
the part of the browser's `DOMParser` (a host API, not in the repository)
the code reaches through `getAttribute`.  Reads `name="value"` /
`name='value'` pairs until `/` or `>`; anything malformed yields `none`
(a parse failure adds no fields, like the DOMParser error document). -/
def parseAttrsAux : Nat → List Char → List (String × String) →
    Option (List (String × String))
  | 0, _, _ => none
  | fuel + 1, cs, acc =>
    match cs.dropWhile isSpaceChar with
    | [] => none
    | '/' :: _ => some acc.reverse
    | '>' :: _ => some acc.reverse
    | cs2 =>
      let name := cs2.takeWhile
        (fun c => !(isSpaceChar c) && c ≠ '=' && c ≠ '>' && c ≠ '/')
      let rest := cs2.dropWhile
        (fun c => !(isSpaceChar c) && c ≠ '=' && c ≠ '>' && c ≠ '/')
      if name.isEmpty then none
      else
        match rest.dropWhile isSpaceChar with
        | '=' :: r2 =>
          match r2.dropWhile isSpaceChar with
          | '"' :: r3 =>
            (match r3.dropWhile (fun c => c ≠ '"') with
             | '"' :: r4 =>
               parseAttrsAux fuel r4
                 ((String.mk name, String.mk (r3.takeWhile (fun c => c ≠ '"'))) :: acc)
             | _ => none)
          | '\'' :: r3 =>
            (match r3.dropWhile (fun c => c ≠ '\'') with
             | '\'' :: r4 =>
               parseAttrsAux fuel r4
                 ((String.mk name, String.mk (r3.takeWhile (fun c => c ≠ '\''))) :: acc)
             | _ => none)
          | _ => none
        | _ => none

/-- Modelled from the spec: the search for the first `Pixels` element
performed through `DOMParser` + `getElementsByTagName('Pixels')[0]` (host
APIs, not in the repository).  Scans for `<Pixels` followed by a
delimiter; XML names are case-sensitive. -/
def findPixelsOpen : List Char → Option (List Char)
  | [] => none
  | c :: rest =>
    if c = '<' then
      match startsWithChars "Pixels".data rest with
      | some r =>
        (match r with
         | [] => none
         | d :: _ =>
           if isSpaceChar d || d = '/' || d = '>' then some r
           else findPixelsOpen rest)
      | none => findPixelsOpen rest
    else findPixelsOpen rest

/-- Modelled from the spec: the attribute list of the first `Pixels`
element of the description, `none` when there is no such element or the
tag is malformed. -/
def findPixelsAttrs (description : String) : Option (List (String × String)) :=
  match findPixelsOpen description.data with
  | some r => parseAttrsAux (r.length + 1) r []
  | none => none

/-- `pixels.getAttribute(name)`: the value of the named attribute, `none`
when absent (DOM `null`). -/
def getAttr (attrs : List (String × String)) (name : String) : Option String :=
  (attrs.find? (fun p => p.1 == name)).map Prod.snd

/-- JS truthiness of a possibly-absent string: present and nonempty. -/
def truthyOptS : Option String → Option String
  | some s => if s = "" then none else some s
  | none => none

/-- The description-interpretation step (lines guarded by
`if (description)`): the XML branch pulling `Pixels` attributes, or the
regex branch; each attribute is added only when truthy, numeric ones
through `parseFloat`. -/
def interpretDescription (description : String) (meta : Meta) : Meta :=
  if description.trim.startsWith "<" then
    match findPixelsAttrs description with
    | none => meta
    | some attrs =>
      let physUnit : Option String :=
        match truthyOptS (getAttr attrs "PhysicalSizeXUnit") with
        | some s => some s
        | none => getAttr attrs "PhysicalSizeYUnit"
      let meta := match truthyOptS (getAttr attrs "PhysicalSizeX") with
        | some s => { meta with physicalSizeX := parseFloat? s }
        | none => meta
      let meta := match truthyOptS (getAttr attrs "PhysicalSizeY") with
        | some s => { meta with physicalSizeY := parseFloat? s }
        | none => meta
      let meta := match truthyOptS (getAttr attrs "PhysicalSizeZ") with
        | some s => { meta with physicalSizeZ := parseFloat? s }
        | none => meta
      let meta := match truthyOptS physUnit with
        | some s => { meta with physicalSizeUnit := some s }
        | none => meta
      let meta := match truthyOptS (getAttr attrs "TimeIncrement") with
        | some s => { meta with timeIncrement := parseFloat? s }
        | none => meta
      let meta := match truthyOptS (getAttr attrs "TimeIncrementUnit") with
        | some s => { meta with timeIncrementUnit := some s }
        | none => meta
      let meta := match truthyOptS (getAttr attrs "FrameRate") with
        | some s => { meta with frameRate := parseFloat? s }
        | none => meta
      meta
  else
    applyPatterns description meta

/-- The `meta` object as first assembled from the IFD walk (line
`const meta = { width, height, xResolution: xRes, yResolution: yRes }`). -/
def geomMeta (st : IfdAcc) : Meta :=
  { width := st.width, height := st.height,
    xResolution := st.xRes, yResolution := st.yRes }

/-- The final metadata: the geometry fields plus, when a nonempty
description was decoded (`if (description)`), whatever the description
interpreter adds. -/
def mkMeta (st : IfdAcc) : Meta :=
  match st.description with
  | some d => if d = "" then geomMeta st else interpretDescription d (geomMeta st)
  | none => geomMeta st

/-- The whole of `parseTiffMetadata`: header checks, IFD walk, metadata
object construction and description interpretation.  `Except.error ()`
models an uncaught `DataView` `RangeError` escaping the function. -/
def parseTiffMetadata (buf : Buf) : Except Unit Meta :=
  if buf.length < 8 then .ok {}
  else if magicOf buf ≠ 42 ∧ magicOf buf ≠ 43 then .ok {}
  else
    match (if magicOf buf = 42 then .ok (u32 buf (littleEndianOf buf) 4)
           else getU64E buf (littleEndianOf buf) 4 : Except Unit Nat) with
    | .error e => .error e
    | .ok firstIFDOffset =>
      if firstIFDOffset + 2 > buf.length then .ok {}
      else
        match (List.range (u16 buf (littleEndianOf buf) firstIFDOffset)).foldlM
            (processEntry buf (littleEndianOf buf) firstIFDOffset) ({} : IfdAcc) with
        | .error e => .error e
        | .ok st => .ok (mkMeta st)

/-- The metadata `handleFile` actually formats: the parse result, or `{}`
when the parser threw (its `try { ... } catch { meta = {} }`). -/
def handleFileMeta (buf : Buf) : Meta :=
  match parseTiffMetadata buf with
  | .ok m => m
  | .error _ => {}

/-- JS truthiness of a possibly-absent number field (`meta.width && ...`):
present and nonzero. -/
def truthyN : Option Nat → Bool
  | some n => n != 0
  | none => false

/-- JS truthiness of a possibly-absent rational field. -/
def truthyQ : Option ℚ → Bool
  | some q => decide (q ≠ 0)
  | none => false

/-- JS truthiness of a possibly-absent string field. -/
def truthyS : Option String → Bool
  | some s => s != ""
  | none => false

/-- Left-pad with zeros to `k` characters. -/
def padZeros (k : Nat) (s : String) : String :=
  String.mk (List.replicate (k - s.length) '0') ++ s

/-- Modelled from the spec: the JS number-to-string conversion a template
literal performs (host behaviour, not in the repository).  A rational with
a finite decimal expansion prints as its shortest decimal (JS prints the
shortest decimal that round-trips, which agrees on such values); the
residual case falls back to a fraction and is never reached in the
scenarios below. -/
def dispQ (q : ℚ) : String :=
  let sign := if q < 0 then "-" else ""
  let n := q.num.natAbs
  let d := q.den
  match (List.range 21).find? (fun k => (10 : Nat) ^ k % d = 0) with
  | some 0 => sign ++ toString n
  | some k =>
      let scaled := n * 10 ^ k / d
      sign ++ toString (scaled / 10 ^ k) ++ "."
        ++ padZeros k (toString (scaled % 10 ^ k))
  | none => sign ++ toString n ++ "/" ++ toString d

/-- Rendering of `meta.width ?? '?'` (the nullish coalescing shows a
present zero as `0`, only absence as `?`). -/
def dispN : Option Nat → String
  | some n => toString n
  | none => "?"

/-- Rendering of `meta.xResolution ?? '?'`. -/
def dispQO : Option ℚ → String
  | some q => dispQ q
  | none => "?"

/-- First-occurrence replacement `unit.replace(/micro|Micro/, 'μm')`:
the leftmost occurrence of `micro` or `Micro` (exact case, the regex has
no `i` flag and no `g` flag) becomes the two characters `μm`. -/
def replaceMicroAux : List Char → List Char
  | [] => []
  | c :: cs =>
    match startsWithChars "micro".data (c :: cs) with
    | some rest => "μm".data ++ rest
    | none =>
      match startsWithChars "Micro".data (c :: cs) with
      | some rest => "μm".data ++ rest
      | none => c :: replaceMicroAux cs

/-- String form of `replaceMicroAux`. -/
def replaceMicro (s : String) : String := String.mk (replaceMicroAux s.data)

/-- The `Width`/`Height` block (gated on `meta.width || meta.height`). -/
def widthHeightSeg (m : Meta) : String :=
  if truthyN m.width || truthyN m.height then
    "\nWidth: " ++ dispN m.width ++ " px\nHeight: " ++ dispN m.height ++ " px"
  else ""

/-- The resolution block (gated on `meta.xResolution || meta.yResolution`). -/
def resolutionSeg (m : Meta) : String :=
  if truthyQ m.xResolution || truthyQ m.yResolution then
    "\nX Resolution: " ++ dispQO m.xResolution
      ++ "\nY Resolution: " ++ dispQO m.yResolution
  else ""

/-- The pixel-size block: shared unit suffix (micro/Micro replaced, or the
literal `units`), one line per truthy axis. -/
def pixelSizeSeg (m : Meta) : String :=
  if truthyQ m.physicalSizeX || truthyQ m.physicalSizeY || truthyQ m.physicalSizeZ then
    let unit := if truthyS m.physicalSizeUnit then
        " " ++ replaceMicro (m.physicalSizeUnit.getD "")
      else " units"
    (if truthyQ m.physicalSizeX then
        "\nPixel Size X: " ++ dispQ (m.physicalSizeX.getD 0) ++ unit else "")
      ++ (if truthyQ m.physicalSizeY then
        "\nPixel Size Y: " ++ dispQ (m.physicalSizeY.getD 0) ++ unit else "")
      ++ (if truthyQ m.physicalSizeZ then
        "\nPixel Size Z: " ++ dispQ (m.physicalSizeZ.getD 0) ++ unit else "")
  else ""

/-- The time-increment line (unit defaulting to seconds). -/
def timeSeg (m : Meta) : String :=
  if truthyQ m.timeIncrement then
    "\nTime Increment: " ++ dispQ (m.timeIncrement.getD 0)
      ++ (if truthyS m.timeIncrementUnit then
            " " ++ m.timeIncrementUnit.getD "" else " s")
  else ""

/-- The frame-rate line. -/
def frameSeg (m : Meta) : String :=
  if truthyQ m.frameRate then
    "\nFrame Rate: " ++ dispQ (m.frameRate.getD 0) ++ " Hz"
  else ""

/-- The literal failure notice appended by `handleFile`. -/
def noticeText : String := "\n\nUnable to parse metadata from this file."

/-- The failure-notice block, gated on all four geometry fields being
falsy (`!meta.width && !meta.height && !meta.xResolution &&
!meta.yResolution`). -/
def noticeSeg (m : Meta) : String :=
  if !truthyN m.width && !truthyN m.height
      && !truthyQ m.xResolution && !truthyQ m.yResolution then
    noticeText
  else ""

/-- Everything `handleFile` appends to the `File:`/`Size:` header, in
source order (lines 148-173 of the formatter). -/
def metaLines (m : Meta) : String :=
  widthHeightSeg m ++ resolutionSeg m ++ pixelSizeSeg m
    ++ timeSeg m ++ frameSeg m ++ noticeSeg m

/-- The full report of `handleFile`; `sizeStr` stands for the host-locale
rendering `file.size.toLocaleString()`. -/
def buildReport (fileName sizeStr : String) (buf : Buf) : String :=
  "File: " ++ fileName ++ "\nSize: " ++ sizeStr ++ " bytes"
    ++ metaLines (handleFileMeta buf)

/-! Concrete scenario buffers.  All are little-endian classic TIFF: bytes
0-7 are the header `II`, magic 42, first-IFD offset 8; the entry count
sits at offset 8 and 12-byte entries follow from offset 10. -/

/-- Minimal valid buffer (22 bytes): one entry, tag 0x0100 (ImageWidth),
field type 3 (short), count 1, inline value 100. -/
def widthShortBuf : Buf :=
  [0x49, 0x49, 42, 0, 8, 0, 0, 0, 1, 0,
   0x00, 0x01, 3, 0, 1, 0, 0, 0, 100, 0, 0, 0]

/-- As `widthShortBuf` but field type 4 (long) and inline 32-bit value
70000 = 0x00011170, a value a 16-bit read could not produce. -/
def widthLongBuf : Buf :=
  [0x49, 0x49, 42, 0, 8, 0, 0, 0, 1, 0,
   0x00, 0x01, 4, 0, 1, 0, 0, 0, 0x70, 0x11, 0x01, 0]

/-- As `widthShortBuf` but with nonzero bytes after the 16-bit value in
the inline slot: a type-3 width entry whose value bytes are
`[100, 0, 77, 0]`; a 32-bit read would see 5046372, a 16-bit read 100. -/
def widthShortJunkBuf : Buf :=
  [0x49, 0x49, 42, 0, 8, 0, 0, 0, 1, 0,
   0x00, 0x01, 3, 0, 1, 0, 0, 0, 100, 0, 77, 0]

/-- Two declared entries (34 bytes): a valid type-3 ImageWidth entry with
value 100, then a tag 0x011A (XResolution) entry with field type 5 and
count 0, so `size = 0 ≤ 4` and its value is taken inline at the entry's
byte 8; the buffer ends exactly at that entry's end, so the second
4-byte read of the rational (`getUint32(valueOffset + 4)`) starts at the
buffer end and throws. -/
def inlineRationalOverrunBuf : Buf :=
  [0x49, 0x49, 42, 0, 8, 0, 0, 0, 2, 0,
   0x00, 0x01, 3, 0, 1, 0, 0, 0, 100, 0, 0, 0,
   0x1A, 0x01, 5, 0, 0, 0, 0, 0, 0, 0, 0, 0]

/-- Two declared entries (28 bytes): a valid ImageWidth entry, then a
second entry truncated after 6 of its 12 bytes. -/
def truncatedEntryBuf : Buf :=
  [0x49, 0x49, 42, 0, 8, 0, 0, 0, 2, 0,
   0x00, 0x01, 3, 0, 1, 0, 0, 0, 100, 0, 0, 0,
   0x1A, 0x01, 5, 0, 1, 0]

/-- One entry (22 bytes): tag 0x011A (XResolution), type 5, count 1,
pointer 200 with `200 + 8 > 22`, so the pointer bounds check fails. -/
def pointerOutOfRangeBuf : Buf :=
  [0x49, 0x49, 42, 0, 8, 0, 0, 0, 1, 0,
   0x1A, 0x01, 5, 0, 1, 0, 0, 0, 200, 0, 0, 0]

/-- One entry (30 bytes): XResolution rational at pointer 22 with
numerator 7 and denominator 0. -/
def rationalZeroDenBuf : Buf :=
  [0x49, 0x49, 42, 0, 8, 0, 0, 0, 1, 0,
   0x1A, 0x01, 5, 0, 1, 0, 0, 0, 22, 0, 0, 0,
   7, 0, 0, 0, 0, 0, 0, 0]

/-- As `rationalZeroDenBuf` but with denominator 2. -/
def rationalBuf : Buf :=
  [0x49, 0x49, 42, 0, 8, 0, 0, 0, 1, 0,
   0x1A, 0x01, 5, 0, 1, 0, 0, 0, 22, 0, 0, 0,
   7, 0, 0, 0, 2, 0, 0, 0]

/-- The spec's embedded OME description: a `Pixels` element with
`PhysicalSizeX="0.5"` and `PhysicalSizeXUnit="micron"`, wrapped in a
minimal XML root. -/
def omeDescription : String :=
  "<OME><Pixels PhysicalSizeX=\"0.5\" PhysicalSizeXUnit=\"micron\"/></OME>"

/-! Theorems settling the claims. -/

/-- C7: for every buffer shorter than 8 bytes, parsing returns without
error the metadata record in which every field is absent (`{}` has every
field `none`). -/
theorem c7_short_buffer_empty (buf : Buf) (h : buf.length < 8) :
    parseTiffMetadata buf = .ok {} := by
  unfold parseTiffMetadata
  rw [if_pos h]

/-- Witness for C7 at the 3-byte buffer `[1, 2, 3]`. -/
theorem c7_short_buffer_empty_witness :
    ([1, 2, 3] : Buf).length < 8 ∧ parseTiffMetadata [1, 2, 3] = .ok {} :=
  ⟨by decide, c7_short_buffer_empty [1, 2, 3] (by decide)⟩

/-- C6: a directory entry whose 12-byte span extends beyond the buffer
end is skipped entirely — the loop body returns the accumulator
unchanged, with no reads of that entry and no error. -/
theorem c6_truncated_entry_skipped (buf : Buf) (le : Bool)
    (firstIFDOffset : Nat) (st : IfdAcc) (i : Nat)
    (h : firstIFDOffset + 2 + i * 12 + 12 > buf.length) :
    processEntry buf le firstIFDOffset st i = .ok st := by
  unfold processEntry
  rw [if_pos h]

/-- Witness for C6: the second (truncated) entry of `truncatedEntryBuf`
is skipped, and end to end the file parses without error, the valid width
entry still populated and the truncated entry's field absent. -/
theorem c6_truncated_entry_skipped_witness :
    (8 + 2 + 1 * 12 + 12 > truncatedEntryBuf.length
      ∧ processEntry truncatedEntryBuf true 8 { width := some 100 } 1
          = .ok { width := some 100 })
    ∧ parseTiffMetadata truncatedEntryBuf = .ok { width := some 100 } :=
  ⟨⟨by decide,
    c6_truncated_entry_skipped truncatedEntryBuf true 8 { width := some 100 } 1
      (by decide)⟩,
   by decide⟩

/-- C8: for every buffer of at least 8 bytes whose 16-bit magic number at
offset 2 (read in the detected byte order) is neither 42 nor 43, parsing
returns all-fields-absent metadata and no error. -/
theorem c8_bad_magic_empty (buf : Buf) (h8 : 8 ≤ buf.length)
    (h42 : magicOf buf ≠ 42) (h43 : magicOf buf ≠ 43) :
    parseTiffMetadata buf = .ok {} := by
  unfold parseTiffMetadata
  rw [if_neg (by omega), if_pos ⟨h42, h43⟩]

/-- Witness for C8 at the 8-byte all-zero buffer, whose magic number is 0. -/
theorem c8_bad_magic_empty_witness :
    (8 ≤ ([0, 0, 0, 0, 0, 0, 0, 0] : Buf).length
      ∧ magicOf [0, 0, 0, 0, 0, 0, 0, 0] = 0)
    ∧ parseTiffMetadata [0, 0, 0, 0, 0, 0, 0, 0] = .ok {} :=
  ⟨⟨by decide, by decide⟩,
   c8_bad_magic_empty [0, 0, 0, 0, 0, 0, 0, 0] (by decide) (by decide) (by decide)⟩

/-- C3: an XResolution (0x011A) or YResolution (0x011B) entry whose
rational value can be read never throws and never divides by zero: with
denominator zero the field is set to the absent value, with nonzero
denominator it equals numerator / denominator (as an exact rational, so
no NaN or Infinity can arise). -/
theorem c3_rational_zero_denominator (buf : Buf) (le : Bool) (st : IfdAcc)
    (ftype size v : Nat) (hv : v + 8 ≤ buf.length) :
    handleTag buf le st 0x011A ftype size v
      = .ok { st with xRes := if u32 buf le (v + 4) ≠ 0
              then some ((u32 buf le v : ℚ) / (u32 buf le (v + 4) : ℚ))
              else none }
    ∧ handleTag buf le st 0x011B ftype size v
      = .ok { st with yRes := if u32 buf le (v + 4) ≠ 0
              then some ((u32 buf le v : ℚ) / (u32 buf le (v + 4) : ℚ))
              else none } := by
  have h1 : v + 4 ≤ buf.length := by omega
  have h2 : v + 4 + 4 ≤ buf.length := by omega
  constructor <;> norm_num [handleTag, getU32E, h1, h2]

/-- Witness for C3: applied to `rationalZeroDenBuf`'s value location, and
checked end to end — a denominator-zero rational leaves `xResolution`
absent while the same file with denominator 2 yields 7/2; neither parse
errors. -/
theorem c3_rational_zero_denominator_witness :
    (handleTag rationalZeroDenBuf true {} 0x011A 5 8 22 = .ok { xRes := none }
      ∧ handleTag rationalBuf true {} 0x011A 5 8 22
          = .ok { xRes := some ((7 : ℚ) / 2) })
    ∧ parseTiffMetadata rationalZeroDenBuf = .ok {}
    ∧ parseTiffMetadata rationalBuf = .ok { xResolution := some ((7 : ℚ) / 2) } := by
  refine ⟨⟨?_, ?_⟩, by decide, by with_unfolding_all decide⟩
  · rw [(c3_rational_zero_denominator rationalZeroDenBuf true {} 5 8 22 (by decide)).1]
    decide
  · rw [(c3_rational_zero_denominator rationalBuf true {} 5 8 22 (by decide)).1]
    with_unfolding_all decide

/-- C4: the minimal classic-TIFF round trip — one IFD entry for tag
0x0100 with field type 3 (short) and value 100 parses to width 100 — and
in general the ImageWidth (0x0100) / ImageLength (0x0101) handlers read a
16-bit value when the field type is 3 and a 32-bit value otherwise. -/
theorem c4_width_round_trip :
    (parseTiffMetadata widthShortBuf = .ok { width := some 100 }
      ∧ parseTiffMetadata widthLongBuf = .ok { width := some 70000 }
      ∧ parseTiffMetadata widthShortJunkBuf = .ok { width := some 100 })
    ∧ (∀ (buf : Buf) (le : Bool) (st : IfdAcc) (ftype size v : Nat),
        v + 2 ≤ buf.length → ftype = 3 →
        handleTag buf le st 0x0100 ftype size v
          = .ok { st with width := some (u16 buf le v) })
    ∧ (∀ (buf : Buf) (le : Bool) (st : IfdAcc) (ftype size v : Nat),
        v + 4 ≤ buf.length → ftype ≠ 3 →
        handleTag buf le st 0x0100 ftype size v
          = .ok { st with width := some (u32 buf le v) })
    ∧ (∀ (buf : Buf) (le : Bool) (st : IfdAcc) (ftype size v : Nat),
        v + 2 ≤ buf.length → ftype = 3 →
        handleTag buf le st 0x0101 ftype size v
          = .ok { st with height := some (u16 buf le v) })
    ∧ (∀ (buf : Buf) (le : Bool) (st : IfdAcc) (ftype size v : Nat),
        v + 4 ≤ buf.length → ftype ≠ 3 →
        handleTag buf le st 0x0101 ftype size v
          = .ok { st with height := some (u32 buf le v) }) := by
  refine ⟨⟨by decide, by decide, by decide⟩, ?_, ?_, ?_, ?_⟩ <;>
    intro buf le st ftype size v hv hf
  · subst hf; norm_num [handleTag, getU16E, hv]
  · norm_num [handleTag, getU32E, hv, hf]
  · subst hf; norm_num [handleTag, getU16E, hv]
  · norm_num [handleTag, getU32E, hv, hf]

/-- Witness for C4: the general short/long read rules applied at concrete
inputs (a 4-byte buffer, value offset 0). -/
theorem c4_width_round_trip_witness :
    (handleTag [10, 0, 0, 0] true {} 0x0100 3 2 0
        = .ok { width := some (u16 [10, 0, 0, 0] true 0) }
      ∧ handleTag [10, 0, 0, 0] true {} 0x0100 4 4 0
        = .ok { width := some (u32 [10, 0, 0, 0] true 0) })
    ∧ (handleTag [10, 0, 0, 0] true {} 0x0101 3 2 0
        = .ok { height := some (u16 [10, 0, 0, 0] true 0) }
      ∧ handleTag [10, 0, 0, 0] true {} 0x0101 4 4 0
        = .ok { height := some (u32 [10, 0, 0, 0] true 0) }) :=
  ⟨⟨c4_width_round_trip.2.1 [10, 0, 0, 0] true {} 3 2 0 (by decide) rfl,
    c4_width_round_trip.2.2.1 [10, 0, 0, 0] true {} 4 4 0 (by decide) (by decide)⟩,
   ⟨c4_width_round_trip.2.2.2.1 [10, 0, 0, 0] true {} 3 2 0 (by decide) rfl,
    c4_width_round_trip.2.2.2.2 [10, 0, 0, 0] true {} 4 4 0 (by decide) (by decide)⟩⟩

/-- C5: whenever none of width, height, xResolution, yResolution were
recovered, the formatted report ends with the explicit "unable to parse
metadata" notice, whatever other optional fields hold. -/
theorem c5_notice_without_geometry (m : Meta)
    (hw : m.width = none) (hh : m.height = none)
    (hx : m.xResolution = none) (hy : m.yResolution = none) :
    ∃ s, metaLines m = s ++ noticeText := by
  have hn : noticeSeg m = noticeText := by
    simp [noticeSeg, hw, hh, hx, hy, truthyN, truthyQ]
  exact ⟨_, by rw [metaLines, hn]⟩

/-- Witness for C5: metadata with only `frameRate` present still emits
the notice, and the whole report tail is the frame-rate line followed by
the notice. -/
theorem c5_notice_without_geometry_witness :
    (∃ s, metaLines { frameRate := some 30 } = s ++ noticeText)
    ∧ metaLines { frameRate := some 30 }
        = "\nFrame Rate: 30 Hz\n\nUnable to parse metadata from this file." :=
  ⟨c5_notice_without_geometry { frameRate := some 30 } rfl rfl rfl rfl,
   by with_unfolding_all decide⟩

/-- C9: the non-XML description
`"micronsPerPixelX = 0.3, frame rate = 30"` yields physicalSizeX = 0.3
and frameRate = 30 and nothing else; the searches are case-insensitive
(the upper-cased description yields the same) and independently matched
(a description matching only one pattern leaves the other fields
absent). -/
theorem c9_regex_description :
    interpretDescription "micronsPerPixelX = 0.3, frame rate = 30" {}
      = { physicalSizeX := some ((3 : ℚ) / 10), frameRate := some 30 }
    ∧ interpretDescription "MICRONSPERPIXELX = 0.3, FRAME RATE = 30" {}
      = { physicalSizeX := some ((3 : ℚ) / 10), frameRate := some 30 }
    ∧ interpretDescription "frame rate: 30" {} = { frameRate := some (30 : ℚ) } := by
  refine ⟨?_, ?_, ?_⟩ <;> with_unfolding_all decide

/-- C2 counterexample: for the spec's own description the interpreter
does yield physicalSizeX = 0.5 and physicalSizeUnit = "micron", but the
formatted report contains the line `Pixel Size X: 0.5 μmn` and not the
claimed line `Pixel Size X: 0.5 μm` — `replace(/micro|Micro/, 'μm')`
substitutes the five letters `micro` with the two characters `μm`,
leaving the `n` of `micron` in place. -/
theorem c2_micron_line_counterexample :
    interpretDescription omeDescription {}
      = { physicalSizeX := some ((1 : ℚ) / 2), physicalSizeUnit := some "micron" }
    ∧ ((metaLines (interpretDescription omeDescription {})).splitOn "\n").contains
        "Pixel Size X: 0.5 μmn" = true
    ∧ ((metaLines (interpretDescription omeDescription {})).splitOn "\n").contains
        "Pixel Size X: 0.5 μm" = false := by
  refine ⟨?_, ?_, ?_⟩ <;> with_unfolding_all decide

/-- C2 as amended: the interpreter yields physicalSizeX = 0.5 and
physicalSizeUnit = "micron", and the formatter renders the line
`Pixel Size X: 0.5 μmn`, the unit string having its first `micro`/`Micro`
substring replaced by the two-character string `μm`. -/
theorem c2_micron_line_amended :
    interpretDescription omeDescription {}
      = { physicalSizeX := some ((1 : ℚ) / 2), physicalSizeUnit := some "micron" }
    ∧ metaLines (interpretDescription omeDescription {})
      = "\nPixel Size X: 0.5 μmn" ++ noticeText
    ∧ replaceMicro "micron" = "μmn"
    ∧ replaceMicro "Microns" = "μmns" := by
  refine ⟨?_, ?_, ?_, ?_⟩ <;> with_unfolding_all decide

/-- C1 counterexample: in `inlineRationalOverrunBuf` the second entry's
rational value is inline (size 0 ≤ 4) and its second 32-bit read starts
at the buffer end; that read is not bounds-checked, the whole parse
throws, and `handleFile`'s catch replaces the result with empty metadata
— the width 100 already extracted from the first entry is lost, as
padding the same buffer with 4 bytes shows. -/
theorem c1_inline_read_counterexample :
    parseTiffMetadata inlineRationalOverrunBuf = .error ()
    ∧ handleFileMeta inlineRationalOverrunBuf = {}
    ∧ handleFileMeta (inlineRationalOverrunBuf ++ [0, 0, 0, 0])
        = { width := some 100 } := by
  refine ⟨?_, ?_, ?_⟩ <;> decide

/-- C1 as amended: offset-indirected (size > 4) value reads are
bounds-checked before dereferencing and an out-of-range pointer causes
only that entry to be skipped; but inline (size ≤ 4) value reads are not
bounds-checked — a rational tag whose inline value sits at the end of the
buffer reads out of bounds, the whole parse throws, and the caller
substitutes empty metadata, discarding previously extracted fields. -/
theorem c1_bounds_check_amended :
    (∀ (buf : Buf) (le : Bool) (firstIFDOffset : Nat) (st : IfdAcc) (i : Nat),
      firstIFDOffset + 2 + i * 12 + 12 ≤ buf.length →
      typeSizeMap (u16 buf le (firstIFDOffset + 2 + i * 12 + 2))
          * u32 buf le (firstIFDOffset + 2 + i * 12 + 4) > 4 →
      u32 buf le (firstIFDOffset + 2 + i * 12 + 8)
          + typeSizeMap (u16 buf le (firstIFDOffset + 2 + i * 12 + 2))
            * u32 buf le (firstIFDOffset + 2 + i * 12 + 4) > buf.length →
      processEntry buf le firstIFDOffset st i = .ok st)
    ∧ (∀ (buf : Buf) (le : Bool) (st : IfdAcc) (ftype size v : Nat),
      v + 4 ≤ buf.length → v + 8 > buf.length →
      handleTag buf le st 0x011A ftype size v = .error ())
    ∧ handleFileMeta inlineRationalOverrunBuf = {} := by
  refine ⟨?_, ?_, by decide⟩
  · intro buf le firstIFDOffset st i h1 h2 h3
    simp only [processEntry]
    rw [if_neg (by omega), if_neg (by omega), if_pos h3]
  · intro buf le st ftype size v h4 h8
    have h2 : ¬ (v + 4 + 4 ≤ buf.length) := by omega
    unfold handleTag getU32E
    rw [if_pos h4, if_neg h2]
    norm_num

/-- Witness for C1 as amended: the out-of-range pointer entry of
`pointerOutOfRangeBuf` is skipped (file parses to empty metadata without
error), while the unchecked inline rational read of
`inlineRationalOverrunBuf` throws. -/
theorem c1_bounds_check_amended_witness :
    (processEntry pointerOutOfRangeBuf true 8 {} 0 = .ok {}
      ∧ parseTiffMetadata pointerOutOfRangeBuf = .ok {})
    ∧ handleTag inlineRationalOverrunBuf true {} 0x011A 5 0 30 = .error () :=
  ⟨⟨c1_bounds_check_amended.1 pointerOutOfRangeBuf true 8 {} 0
      (by decide) (by decide) (by decide),
    by decide⟩,
   c1_bounds_check_amended.2.1 inlineRationalOverrunBuf true {} 5 0 30
     (by decide) (by decide)⟩

/-- C10 counterexample: a present-but-zero width is distinguishable from
an absent one — with a nonzero height the line is rendered and shows
`Width: 0 px` for the zero value but `Width: ? px` for the absent one. -/
theorem c10_zero_vs_absent_counterexample :
    metaLines { width := some 0, height := some 5 } = "\nWidth: 0 px\nHeight: 5 px"
    ∧ metaLines { width := none, height := some 5 } = "\nWidth: ? px\nHeight: 5 px"
    ∧ metaLines { width := some 0, height := some 5 }
        ≠ metaLines { width := none, height := some 5 } := by
  refine ⟨?_, ?_, ?_⟩ <;> decide

/-- C10 as amended: the width/height line is gated on either value being
nonzero, so with the other geometry fields falsy a present-but-zero width
renders exactly like an absent one, and whenever all four geometry fields
are absent or zero the "unable to parse" notice is emitted; but when the
line is rendered because the other value is nonzero, a present zero
prints as `0` where absence prints as `?`, so the two are then
distinguishable. -/
theorem c10_zero_gating_amended :
    (∀ m : Meta, m.width = some 0 → truthyN m.height = false →
      metaLines m = metaLines { m with width := none })
    ∧ (∀ m : Meta, truthyN m.width = false → truthyN m.height = false →
      truthyQ m.xResolution = false → truthyQ m.yResolution = false →
      ∃ s, metaLines m = s ++ noticeText) := by
  constructor
  · intro m hw hh
    have hw' : truthyN m.width = false := by rw [hw]; rfl
    simp [metaLines, widthHeightSeg, resolutionSeg, pixelSizeSeg, timeSeg,
      frameSeg, noticeSeg, hw', hh, show truthyN none = false from rfl]
  · intro m hw hh hx hy
    have hn : noticeSeg m = noticeText := by
      simp [noticeSeg, hw, hh, hx, hy]
    exact ⟨_, by rw [metaLines, hn]⟩

/-- Witness for C10 as amended: with height absent, a zero width renders
identically to an absent width, and the zero-width metadata still emits
the notice. -/
theorem c10_zero_gating_amended_witness :
    metaLines { width := some 0 } = metaLines { ({ width := some 0 } : Meta) with width := none }
    ∧ ∃ s, metaLines { width := some 0 } = s ++ noticeText :=
  ⟨c10_zero_gating_amended.1 { width := some 0 } rfl rfl,
   c10_zero_gating_amended.2 { width := some 0 } rfl rfl rfl rfl⟩

end Tiff




